import Mathlib

/-!
Verification of the Claims Guardian AI repository: a shallow embedding of the
frontend claim-input form, validation-result page and chat interface
(frontend/src/components/ClaimInput.tsx, ValidationResults.tsx,
frontend/src/app/page.tsx, ChatInterface.tsx), together with a model of the
backend orchestrator, risk scoring, aggregation and conversation service as
described in the specification (the backend Python sources are not part of the
sources provided, only their documentation).

Numbers are embedded as `ℚ` (charges) and `ℤ`/`ℕ` (units, counts); JavaScript
string primitives (`trim`, `split`, `parseInt`, `parseFloat`) are modelled over
Lean `String`/`List Char` with decimal semantics.
-/

namespace ClaimsGuardian

/-! ### JavaScript string primitives -/

/-- Whitespace characters recognised by the model of JavaScript `String.prototype.trim`
(the common ASCII whitespace; exotic Unicode space code points are not modelled). -/
def isJsSpace (c : Char) : Bool :=
  c = ' ' || c = '\t' || c = '\n' || c = '\r' || c = '\x0b' || c = '\x0c'

/-- Model of JavaScript `s.trim()`: drop leading and trailing whitespace. -/
def jsTrim (s : String) : String :=
  ⟨(((s.data.dropWhile isJsSpace).reverse).dropWhile isJsSpace).reverse⟩

/-- Split a character list at every occurrence of `sep`, keeping empty pieces,
as JavaScript `s.split(sep)` does. -/
def jsSplitAux (sep : Char) : List Char → List Char → List (List Char)
  | [], acc => [acc.reverse]
  | c :: cs, acc =>
    if c = sep then acc.reverse :: jsSplitAux sep cs []
    else jsSplitAux sep cs (c :: acc)

/-- Model of JavaScript `s.split(sep)` for a single-character separator:
every separator occurrence produces a boundary and empty pieces are kept
(`",".split(',')` is `["", ""]`). -/
def jsSplit (sep : Char) (s : String) : List String :=
  (jsSplitAux sep s.data []).map (fun l => ⟨l⟩)

/-- Consume an optional leading sign, returning the sign as `1` or `-1`
together with the remaining characters. -/
def signSplit (cs : List Char) : Int × List Char :=
  match cs with
  | c :: rest =>
    if c = '-' then (-1, rest) else if c = '+' then (1, rest) else (1, cs)
  | [] => (1, cs)

/-- Read the longest leading run of decimal digits: returns its value, the
number of digits read, and the remaining characters. -/
def readDigits (cs : List Char) : Nat × Nat × List Char :=
  let ds := cs.takeWhile Char.isDigit
  (ds.foldl (fun acc c => 10 * acc + (c.toNat - 48)) 0, ds.length, cs.drop ds.length)

/-- Model of JavaScript `parseInt(s)` (radix 10): skip leading whitespace, read
an optional sign and then the longest run of decimal digits; `none` models the
`NaN` result when no digit is found.  (Hexadecimal `0x` prefixes are not
modelled.) -/
def jsParseInt (s : String) : Option Int :=
  let cs := (signSplit (s.data.dropWhile isJsSpace)).2
  let sign := (signSplit (s.data.dropWhile isJsSpace)).1
  if (readDigits cs).2.1 = 0 then none
  else some (sign * ((readDigits cs).1 : Int))

/-- Read an optional exponent part `e±ddd` (after the mantissa); JavaScript
ignores a dangling `e` with no digits, which is modelled by returning `0`. -/
def readExponent : List Char → Int
  | c :: rest =>
    if c = 'e' || c = 'E' then
      let (esign, rest) := signSplit rest
      let (ev, ec, _) := readDigits rest
      if ec = 0 then 0 else esign * (ev : Int)
    else 0
  | [] => 0

/-- Model of JavaScript `parseFloat(s)`: skip leading whitespace, read an
optional sign, integer digits, an optional fraction and an optional exponent;
`none` models `NaN` (no digit at all).  (`Infinity` literals are not
modelled.) -/
def jsParseFloat (s : String) : Option ℚ :=
  let sign := (signSplit (s.data.dropWhile isJsSpace)).1
  let cs1 := (signSplit (s.data.dropWhile isJsSpace)).2
  let ip := (readDigits cs1).1
  let ic := (readDigits cs1).2.1
  let cs2 := (readDigits cs1).2.2
  let frac :=
    match cs2 with
    | '.' :: rest => readDigits rest
    | _ => (0, 0, cs2)
  if ic = 0 ∧ frac.2.1 = 0 then none
  else
    some ((sign : ℚ) * ((ip : ℚ) + (frac.1 : ℚ) / ((10 : ℚ) ^ frac.2.1)) *
      (10 : ℚ) ^ readExponent frac.2.2)

/-- Whether the first non-whitespace character of a string is a minus sign
(the only way a JavaScript `parseFloat` result can come out negative). -/
def startsWithMinus (s : String) : Bool :=
  match s.data.dropWhile isJsSpace with
  | '-' :: _ => true
  | _ => false

/-! ### Data model (frontend/src/lib types, as used by the components) -/

/-- A procedure entry of a claim (`ProcedureCode` in the frontend types). -/
structure ProcedureCode where
  cpt : String
  modifiers : List String
  units : Int
  charge : ℚ
deriving DecidableEq, Repr

structure Patient where
  name : String
  dob : String
  gender : String
  insurance_id : String
deriving DecidableEq, Repr

structure Provider where
  name : String
  npi : String
  specialty : String
deriving DecidableEq, Repr

structure Claim where
  claim_id : String
  patient : Patient
  provider : Provider
  service_date : String
  diagnosis_codes : List String
  procedure_codes : List ProcedureCode
  total_charge : ℚ
deriving DecidableEq, Repr

/-- Severity of a validation issue, ordered low < medium < high < critical. -/
inductive IssueSeverity
  | low
  | medium
  | high
  | critical
deriving DecidableEq, Repr

/-- A finding produced by one validator (the `issue` objects rendered by
ValidationResults.tsx; `Finding` in the specification). -/
structure ValidationIssue where
  agent_name : String
  issue_type : String
  severity : IssueSeverity
  description : String
  explanation : String
  confidence_score : ℚ
  cost_impact : Option ℚ
  suggested_fix : Option String
deriving DecidableEq, Repr

inductive OverallStatus
  | passed
  | flagged
  | rejected
deriving DecidableEq, Repr

structure ValidationResult where
  claim_id : String
  overall_status : OverallStatus
  risk_score : ℕ
  issues : List ValidationIssue
  total_cost_impact : ℚ
  processing_time_ms : ℕ
deriving DecidableEq, Repr

/-! ### ClaimInput.handleSubmit (frontend/src/components/ClaimInput.tsx) -/

/-- The text contents of one procedure row of the claim-input form. -/
structure ProcedureForm where
  cpt : String
  modifiers : String
  units : String
  charge : String
deriving DecidableEq, Repr

/-- The text contents of the scalar fields of the claim-input form. -/
structure ClaimFormData where
  claim_id : String
  patient_name : String
  patient_dob : String
  patient_gender : String
  insurance_id : String
  provider_name : String
  provider_npi : String
  provider_specialty : String
  service_date : String
  diagnosis_codes : String
deriving DecidableEq, Repr

/-- One procedure entry as built inside `handleSubmit`:
`modifiers ? modifiers.split(',').map(trim) : []`,
`parseInt(units) || 1` (so `NaN` and `0` both fall back to `1`),
`parseFloat(charge) || 0` (so `NaN` and `0` both give `0`). -/
def toProcedureCode (p : ProcedureForm) : ProcedureCode :=
  { cpt := p.cpt
    modifiers :=
      if p.modifiers = "" then []
      else (jsSplit ',' p.modifiers).map jsTrim
    units :=
      match jsParseInt p.units with
      | none => 1
      | some n => if n = 0 then 1 else n
    charge := (jsParseFloat p.charge).getD 0 }

/-- The diagnosis-code list built inside `handleSubmit`:
`diagnosis_codes.split(',').map(c => c.trim()).filter(c => c)`. -/
def diagnosisCodesFromText (s : String) : List String :=
  ((jsSplit ',' s).map jsTrim).filter (fun c => c ≠ "")

/-- Embedding of `ClaimInput.handleSubmit`: builds the procedure entries, the
derived total charge (`reduce((sum, p) => sum + p.charge * p.units, 0)`) and
the claim object passed to `onSubmit`. -/
def handleSubmit (formData : ClaimFormData) (procedures : List ProcedureForm) : Claim :=
  let procedureCodes := procedures.map toProcedureCode
  let totalCharge :=
    procedureCodes.foldl (fun sum p => sum + p.charge * (p.units : ℚ)) 0
  { claim_id := formData.claim_id
    patient :=
      { name := formData.patient_name
        dob := formData.patient_dob
        gender := formData.patient_gender
        insurance_id := formData.insurance_id }
    provider :=
      { name := formData.provider_name
        npi := formData.provider_npi
        specialty := formData.provider_specialty }
    service_date := formData.service_date
    diagnosis_codes := diagnosisCodesFromText formData.diagnosis_codes
    procedure_codes := procedureCodes
    total_charge := totalCharge }

/-! ### Orchestrator scoring and status

Modelled from the spec: the backend orchestrator
(`backend/app/agents/orchestrator.py`) is not among the provided sources; the
definitions below follow §4.2 of the specification. -/

/-- Modelled from the spec: severity weights of §4.2,
`{critical: 40, high: 25, medium: 12, low: 5}`. -/
def severityWeight : IssueSeverity → ℕ
  | .critical => 40
  | .high => 25
  | .medium => 12
  | .low => 5

/-- Modelled from the spec: the saturation term added for findings beyond the
third.  The spec leaves the coefficient open (§9 design notes); it is taken
here as 5 per finding beyond the third. -/
def saturationTerm (count : ℕ) : ℕ :=
  if 3 < count then 5 * (count - 3) else 0

/-- Modelled from the spec: the risk score of §4.2 — accumulate the severity
weights over the findings, add the saturation term, and cap at 100. -/
def riskScore (issues : List ValidationIssue) : ℕ :=
  let base := issues.foldl (fun acc f => acc + severityWeight f.severity) 0
  let total := base + saturationTerm issues.length
  if 100 ≤ total then 100 else total

/-- Whether some finding has critical severity. -/
def hasCritical (issues : List ValidationIssue) : Bool :=
  issues.any (fun f => f.severity == .critical)

/-- Modelled from the spec: the overall status of §4.2 — `rejected` if any
critical finding or score ≥ 90, else `flagged` if score ≥ 20, else `passed`. -/
def overallStatus (issues : List ValidationIssue) : OverallStatus :=
  if hasCritical issues = true ∨ 90 ≤ riskScore issues then .rejected
  else if 20 ≤ riskScore issues then .flagged
  else .passed

/-! ### Orchestrator aggregation ordering

Modelled from the spec: each finding is tagged at dispatch time with the fixed
registration index of its producing validator and its appearance position in
that validator's own output (§9 design notes); the fan-in point sorts the
tagged findings by descending severity, ties broken by registration order,
then appearance order (§4.2). -/

/-- A finding tagged with its producing validator's registration index and its
appearance position within that validator's own output. -/
structure TaggedFinding where
  validatorIndex : ℕ
  position : ℕ
  finding : ValidationIssue
deriving DecidableEq, Repr

/-- Numeric rank of a severity, increasing with severity. -/
def sevRank : IssueSeverity → ℕ
  | .low => 0
  | .medium => 1
  | .high => 2
  | .critical => 3

/-- The aggregation order: severity descending, ties broken by validator
registration index, then by appearance position. -/
def keyLe (a b : TaggedFinding) : Prop :=
  sevRank b.finding.severity < sevRank a.finding.severity ∨
    (sevRank b.finding.severity = sevRank a.finding.severity ∧
      (a.validatorIndex < b.validatorIndex ∨
        (a.validatorIndex = b.validatorIndex ∧ a.position ≤ b.position)))

instance : DecidableRel keyLe := fun a b => by
  unfold keyLe; exact inferInstance

instance : IsTotal TaggedFinding keyLe :=
  ⟨by intro a b; unfold keyLe; omega⟩

instance : IsTrans TaggedFinding keyLe :=
  ⟨by intro a b c; unfold keyLe; omega⟩

/-- The (validator index, position) tag of a tagged finding. -/
def tagOf (t : TaggedFinding) : ℕ × ℕ :=
  (t.validatorIndex, t.position)

/-- Tag one validator's output list with registration index `i`, positions
starting at `j`. -/
def tagRow (i : ℕ) : ℕ → List ValidationIssue → List TaggedFinding
  | _, [] => []
  | j, f :: fs => ⟨i, j, f⟩ :: tagRow i (j + 1) fs

/-- Tag the outputs of all validators, in registration order starting at
index `i`. -/
def tagRows : ℕ → List (List ValidationIssue) → List TaggedFinding
  | _, [] => []
  | i, fs :: rest => tagRow i 0 fs ++ tagRows (i + 1) rest

/-- Modelled from the spec: the deterministic fan-in merge — tag every finding
with its validator's registration index and position, then sort by the
aggregation order. -/
def aggregateFindings (rows : List (List ValidationIssue)) : List TaggedFinding :=
  List.insertionSort keyLe (tagRows 0 rows)

/-! ### Conversation Service

Modelled from the spec: the backend conversation endpoint
(`backend/app/api/chat.py`) is not among the provided sources; `ask` follows
§4.4 — it requires an existing `ConversationContext` for the claim id and
fails with the distinct not-found condition otherwise. -/

/-- The per-claim context retained after validation (§3): claim snapshot and
`ValidationResult` snapshot. -/
structure ConversationContext where
  claim : Claim
  result : ValidationResult
deriving DecidableEq, Repr

/-- The failure conditions of the Conversation Service, per the error
taxonomy of §7: a user-visible not-found condition, a soft language-model
backend failure, and a generic internal error — kept distinct. -/
inductive AskError
  | notFound
  | backendFailure
  | internalError
deriving DecidableEq, Repr

/-- Modelled from the spec: `ask(claimId, question)` of §4.4.  The context
store maps claim ids to contexts; the language-model backend may fail, which
is surfaced as a backend failure.  A missing context yields the not-found
condition before any backend call. -/
def ask (contexts : String → Option ConversationContext)
    (llm : ConversationContext → String → Except Unit String)
    (claimId question : String) : Except AskError String :=
  match contexts claimId with
  | none => .error .notFound
  | some ctx =>
    match llm ctx question with
    | .ok answer => .ok answer
    | .error _ => .error .backendFailure

/-! ### Home.handleValidate (frontend/src/app/page.tsx) -/

/-- The React state of the `Home` page component. -/
structure HomeState where
  claim : Option Claim
  validationResult : Option ValidationResult
  isLoading : Bool
  error : Option String
deriving DecidableEq, Repr

/-- Embedding of `Home.handleValidate`: set loading, clear the error, await
`validateClaim` (its outcome is a parameter: the returned result or the
thrown error's message), then either store the claim and result or store the
error message and clear the result; finally clear the loading flag. -/
def handleValidate (s : HomeState) (claimData : Claim)
    (outcome : Except String ValidationResult) : HomeState :=
  let s1 : HomeState := { s with isLoading := true, error := none }
  let s2 : HomeState :=
    match outcome with
    | .ok result => { s1 with claim := some claimData, validationResult := some result }
    | .error msg => { s1 with error := some msg, validationResult := none }
  { s2 with isLoading := false }

/-! ### ChatInterface.handleAsk (frontend/src/components/ChatInterface.tsx) -/

/-- One question/answer entry of the conversation list. -/
structure Message where
  question : String
  answer : String
deriving DecidableEq, Repr

/-- The React state of the `ChatInterface` component. -/
structure ChatState where
  question : String
  conversation : List Message
  isLoading : Bool
  error : Option String
deriving DecidableEq, Repr

/-- The body of a successful `askQuestion` response. -/
structure AskResponse where
  answer : String
deriving DecidableEq, Repr

/-- Embedding of `ChatInterface.handleAsk`: if the question trims to the empty
string, return immediately (no request, no state change — the `Bool` records
whether `askQuestion` was invoked).  Otherwise set loading, clear the error,
await `askQuestion` (outcome a parameter), then on success append the
question/answer pair to the conversation and clear the question field, on
failure store the error message; finally clear the loading flag. -/
def handleAsk (s : ChatState) (outcome : Except String AskResponse) :
    ChatState × Bool :=
  if jsTrim s.question = "" then (s, false)
  else
    let s1 : ChatState := { s with isLoading := true, error := none }
    let s2 : ChatState :=
      match outcome with
      | .ok resp =>
        { s1 with
          conversation := s1.conversation ++ [⟨s.question, resp.answer⟩]
          question := "" }
      | .error msg => { s1 with error := some msg }
    ({ s2 with isLoading := false }, true)

/-- A sample high-severity finding (the CPT–ICD mismatch of the README's
walkthrough), used as a concrete input below. -/
def sampleIssueA : ValidationIssue :=
  { agent_name := "CPT-ICD Validator"
    issue_type := "procedure_diagnosis_mismatch"
    severity := .high
    description := "Procedure code mismatch with diagnosis"
    explanation := ""
    confidence_score := 1
    cost_impact := none
    suggested_fix := none }

/-- A sample medium-severity finding (a cost outlier), used as a concrete
input below. -/
def sampleIssueB : ValidationIssue :=
  { agent_name := "Cost Analyzer"
    issue_type := "cost_outlier"
    severity := .medium
    description := "Charge above reference average"
    explanation := ""
    confidence_score := 1
    cost_impact := none
    suggested_fix := none }

/-! ## Theorems -/

/-- Folding addition of `f` over a list starting from `c` yields `c` plus the
sum of the mapped list. -/
theorem foldl_add_eq_sum {α M : Type} [AddCommMonoid M] (f : α → M) :
    ∀ (l : List α) (c : M), l.foldl (fun s a => s + f a) c = c + (l.map f).sum
  | [], c => by simp
  | a :: l, c => by
    simp [foldl_add_eq_sum f l, add_assoc]

/-- C1: for every claim object constructed and submitted by the claim input
form (`ClaimInput.handleSubmit`), the claim's `total_charge` field equals the
sum over its procedure entries of charge × units. -/
theorem submitted_total_charge_eq_sum (formData : ClaimFormData)
    (procedures : List ProcedureForm) :
    (handleSubmit formData procedures).total_charge =
      ((handleSubmit formData procedures).procedure_codes.map
        (fun p => p.charge * (p.units : ℚ))).sum := by
  show (procedures.map toProcedureCode).foldl
      (fun sum p => sum + p.charge * (p.units : ℚ)) 0 = _
  rw [foldl_add_eq_sum]
  simp [handleSubmit]

/-- C2 counterexample: with units text `"-5"` and charge text `"-3"` — both
representable contents of the form's input fields — the procedure entry built
by `handleSubmit` has a negative unit count and a negative charge, refuting
the claim that this holds for all possible text contents. -/
theorem procedure_entry_bounds_counterexample :
    ¬ (0 < (toProcedureCode ⟨"99213", "", "-5", "-3"⟩).units ∧
       0 ≤ (toProcedureCode ⟨"99213", "", "-5", "-3"⟩).charge) := by
  intro h
  have : (toProcedureCode ⟨"99213", "", "-5", "-3"⟩).units = -5 := by decide
  omega

/-- If the first non-whitespace character of `s` is not a minus sign, the
`parseFloat` model cannot return a negative value. -/
theorem jsParseFloat_nonneg_of_not_minus (s : String)
    (h : startsWithMinus s = false) :
    0 ≤ (jsParseFloat s).getD 0 := by
  have hsign : (signSplit (s.data.dropWhile isJsSpace)).1 = 1 := by
    unfold startsWithMinus at h
    cases hcs : s.data.dropWhile isJsSpace with
    | nil => simp [signSplit]
    | cons c rest =>
      rw [hcs] at h
      by_cases hc : c = '-'
      · subst hc; simp at h
      · simp [signSplit, hc]
        split <;> rfl
  unfold jsParseFloat
  dsimp only
  rw [hsign]
  split
  · simp
  · simp only [Option.getD_some, Int.cast_one, one_mul]
    positivity

/-- C2 amended: for every procedure row whose units text does not parse to a
negative integer and whose charge text does not begin (after whitespace) with
a minus sign, the procedure entry constructed by `handleSubmit` has a positive
integer unit count and a non-negative charge amount.  (The original claim, for
*all* text contents, fails on negative inputs; the form's `min` attributes are
browser-side only.) -/
theorem procedure_entry_units_pos_charge_nonneg (p : ProcedureForm)
    (hu : 0 ≤ (jsParseInt p.units).getD 0)
    (hc : startsWithMinus p.charge = false) :
    0 < (toProcedureCode p).units ∧ 0 ≤ (toProcedureCode p).charge := by
  constructor
  · have hgoal : (toProcedureCode p).units =
        match jsParseInt p.units with
        | none => 1
        | some n => if n = 0 then 1 else n := rfl
    rw [hgoal]
    cases hj : jsParseInt p.units with
    | none => simp
    | some n =>
      rw [hj, Option.getD_some] at hu
      show 0 < if n = 0 then 1 else n
      split
      · omega
      · omega
  · show 0 ≤ (jsParseFloat p.charge).getD 0
    exact jsParseFloat_nonneg_of_not_minus p.charge hc

/-- C2 witness: the sample row with units `"2"` and charge `"135"` satisfies
both hypotheses, and its entry has positive units and non-negative charge. -/
theorem procedure_entry_units_pos_charge_nonneg_witness :
    0 ≤ (jsParseInt "2").getD 0 ∧ startsWithMinus "135" = false ∧
      (0 < (toProcedureCode ⟨"99213", "", "2", "135"⟩).units ∧
        0 ≤ (toProcedureCode ⟨"99213", "", "2", "135"⟩).charge) :=
  ⟨by decide, by decide,
    procedure_entry_units_pos_charge_nonneg ⟨"99213", "", "2", "135"⟩
      (by decide) (by decide)⟩

/-- C3 counterexample: the diagnosis-codes text `","` is non-empty — so it is
accepted by the form's `required` attribute — yet the submitted claim's
diagnosis-code list is empty, refuting the claim for all accepted texts. -/
theorem diagnosis_codes_nonempty_counterexample :
    (ClaimFormData.mk "CLM001" "John Doe" "1985-05-15" "M" "XYZ123456789"
        "Dr. Jane Smith" "1234567890" "Family Medicine" "2025-01-15"
        ",").diagnosis_codes ≠ "" ∧
      (handleSubmit
        (ClaimFormData.mk "CLM001" "John Doe" "1985-05-15" "M" "XYZ123456789"
          "Dr. Jane Smith" "1234567890" "Family Medicine" "2025-01-15" ",")
        [⟨"99213", "", "1", "135"⟩]).diagnosis_codes = [] := by
  constructor
  · decide
  · show diagnosisCodesFromText "," = []
    decide

/-- C3 amended: the diagnosis-code list of the submitted claim is non-empty if
and only if at least one comma-separated segment of the diagnosis-codes text
trims to a non-empty string.  (The form's `required` attribute only rules out
the empty text, so texts made of commas and whitespace still yield an empty
list.) -/
theorem diagnosis_codes_nonempty_iff (formData : ClaimFormData)
    (procedures : List ProcedureForm) :
    (handleSubmit formData procedures).diagnosis_codes ≠ [] ↔
      ∃ seg ∈ jsSplit ',' formData.diagnosis_codes, jsTrim seg ≠ "" := by
  show diagnosisCodesFromText formData.diagnosis_codes ≠ [] ↔ _
  unfold diagnosisCodesFromText
  constructor
  · intro hne
    obtain ⟨x, hx⟩ := List.exists_mem_of_ne_nil _ hne
    rw [List.mem_filter] at hx
    obtain ⟨seg, hseg, rfl⟩ := List.mem_map.mp hx.1
    exact ⟨seg, hseg, by simpa using hx.2⟩
  · rintro ⟨seg, hseg, hne⟩ hnil
    have hmem : jsTrim seg ∈
        ((jsSplit ',' formData.diagnosis_codes).map jsTrim).filter
          (fun c => c ≠ "") :=
      List.mem_filter.mpr ⟨List.mem_map_of_mem _ hseg, by simpa using hne⟩
    rw [hnil] at hmem
    exact List.not_mem_nil _ hmem

/-- C4: for every claim, the risk score lies between 0 and 100 inclusive, and
equals min(100, sum of the severity weights {critical:40, high:25, medium:12,
low:5} across findings, plus a saturation term for findings beyond the
third). -/
theorem riskScore_bounds_and_formula (issues : List ValidationIssue) :
    (0 ≤ riskScore issues ∧ riskScore issues ≤ 100) ∧
      riskScore issues =
        min 100 ((issues.map (fun f => severityWeight f.severity)).sum +
          saturationTerm issues.length) := by
  have hfold : issues.foldl (fun acc f => acc + severityWeight f.severity) 0 =
      (issues.map (fun f => severityWeight f.severity)).sum := by
    rw [foldl_add_eq_sum]
    exact Nat.zero_add _
  unfold riskScore
  dsimp only
  rw [hfold, min_def]
  split
  · omega
  · omega

/-- C5: the overall status is `rejected` iff some finding is critical or the
risk score is ≥ 90; otherwise `flagged` iff the risk score is ≥ 20; otherwise
`passed`. -/
theorem overallStatus_characterization (issues : List ValidationIssue) :
    (overallStatus issues = .rejected ↔
      (∃ f ∈ issues, f.severity = .critical) ∨ 90 ≤ riskScore issues) ∧
    (overallStatus issues = .flagged ↔
      ¬((∃ f ∈ issues, f.severity = .critical) ∨ 90 ≤ riskScore issues) ∧
        20 ≤ riskScore issues) ∧
    (overallStatus issues = .passed ↔
      ¬((∃ f ∈ issues, f.severity = .critical) ∨ 90 ≤ riskScore issues) ∧
        riskScore issues < 20) := by
  have hcrit : hasCritical issues = true ↔ ∃ f ∈ issues, f.severity = .critical := by
    simp [hasCritical, List.any_eq_true]
  unfold overallStatus
  split_ifs with h1 h2 <;> simp_all

/-- Two tagged findings each below the other in the aggregation order carry
the same (validator index, position) tag. -/
theorem keyLe_tag_eq {a b : TaggedFinding} (h1 : keyLe a b) (h2 : keyLe b a) :
    tagOf a = tagOf b := by
  unfold keyLe at h1 h2
  unfold tagOf
  have hv : a.validatorIndex = b.validatorIndex ∧ a.position = b.position := by
    omega
  rw [hv.1, hv.2]

/-- Two sorted lists that are permutations of each other and whose tags are
pairwise distinct are equal: the aggregation order is antisymmetric on lists
with distinct tags. -/
theorem sorted_perm_nodup_tags_eq :
    ∀ {l₁ l₂ : List TaggedFinding}, l₁.Perm l₂ → l₁.Sorted keyLe →
      l₂.Sorted keyLe → (l₁.map tagOf).Nodup → l₁ = l₂ := by
  intro l₁
  induction l₁ with
  | nil =>
    intro l₂ h _ _ _
    cases l₂ with
    | nil => rfl
    | cons b t₂ =>
      have := h.length_eq
      simp at this
  | cons a t ih =>
    intro l₂ h s₁ s₂ nd
    have hndc : (∀ x ∈ t, ¬tagOf x = tagOf a) ∧ (List.map tagOf t).Nodup := by
      simpa using nd
    cases l₂ with
    | nil =>
      have := h.length_eq
      simp at this
    | cons b t₂ =>
      by_cases hab : a = b
      · subst hab
        have ht : t.Perm t₂ := h.cons_inv
        have hrec : t = t₂ :=
          ih ht (List.sorted_cons.mp s₁).2 (List.sorted_cons.mp s₂).2 hndc.2
        rw [hrec]
      · exfalso
        have ha2 : a ∈ b :: t₂ := h.mem_iff.mp (List.mem_cons_self a t)
        have hb1 : b ∈ a :: t := h.symm.mem_iff.mp (List.mem_cons_self b t₂)
        have ha2' : a ∈ t₂ := by
          rcases List.mem_cons.mp ha2 with hh | hh
          · exact absurd hh hab
          · exact hh
        have hb1' : b ∈ t := by
          rcases List.mem_cons.mp hb1 with hh | hh
          · exact absurd hh.symm hab
          · exact hh
        have h1 : keyLe a b := (List.sorted_cons.mp s₁).1 b hb1'
        have h2 : keyLe b a := (List.sorted_cons.mp s₂).1 a ha2'
        have htag := keyLe_tag_eq h1 h2
        exact hndc.1 b hb1' htag.symm

/-- Every element of `tagRow i j fs` carries validator index `i` and a
position of at least `j`. -/
theorem mem_tagRow {i : ℕ} {fs : List ValidationIssue} :
    ∀ {j t}, t ∈ tagRow i j fs → t.validatorIndex = i ∧ j ≤ t.position := by
  induction fs with
  | nil =>
    intro j t ht
    simp [tagRow] at ht
  | cons f rest ih =>
    intro j t ht
    rw [show tagRow i j (f :: rest) = ⟨i, j, f⟩ :: tagRow i (j + 1) rest from rfl]
      at ht
    rcases List.mem_cons.mp ht with hh | hh
    · subst hh
      exact ⟨rfl, le_refl _⟩
    · obtain ⟨hv, hp⟩ := ih hh
      exact ⟨hv, by omega⟩

/-- The tags of one tagged validator row are pairwise distinct. -/
theorem tagRow_tags_nodup {i : ℕ} {fs : List ValidationIssue} :
    ∀ {j}, ((tagRow i j fs).map tagOf).Nodup := by
  induction fs with
  | nil =>
    intro j
    simp [tagRow]
  | cons f rest ih =>
    intro j
    rw [show tagRow i j (f :: rest) = ⟨i, j, f⟩ :: tagRow i (j + 1) rest from rfl,
      List.map_cons, List.nodup_cons]
    refine ⟨?_, ih⟩
    intro hmem
    obtain ⟨t, ht, htag⟩ := List.mem_map.mp hmem
    obtain ⟨-, hp⟩ := mem_tagRow ht
    have hpos : t.position = j := congrArg Prod.snd htag
    omega

/-- Every element of `tagRows i rows` carries a validator index of at
least `i`. -/
theorem mem_tagRows {rows : List (List ValidationIssue)} :
    ∀ {i t}, t ∈ tagRows i rows → i ≤ t.validatorIndex := by
  induction rows with
  | nil =>
    intro i t ht
    simp [tagRows] at ht
  | cons fs rest ih =>
    intro i t ht
    rw [show tagRows i (fs :: rest) = tagRow i 0 fs ++ tagRows (i + 1) rest
      from rfl] at ht
    rcases List.mem_append.mp ht with hh | hh
    · have := (mem_tagRow hh).1
      omega
    · have := ih hh
      omega

/-- The tags produced by tagging all validator outputs are pairwise
distinct. -/
theorem tagRows_tags_nodup :
    ∀ (i : ℕ) (rows : List (List ValidationIssue)),
      ((tagRows i rows).map tagOf).Nodup := by
  intro i rows
  induction rows generalizing i with
  | nil => simp [tagRows]
  | cons fs rest ih =>
    rw [show tagRows i (fs :: rest) = tagRow i 0 fs ++ tagRows (i + 1) rest
      from rfl, List.map_append, List.nodup_append]
    refine ⟨tagRow_tags_nodup, ih (i + 1), ?_⟩
    intro x hx hx2
    obtain ⟨t, ht, rfl⟩ := List.mem_map.mp hx
    obtain ⟨u, hu, htu⟩ := List.mem_map.mp hx2
    have h1 : t.validatorIndex = i := (mem_tagRow ht).1
    have h2 : i + 1 ≤ u.validatorIndex := mem_tagRows hu
    have h3 : u.validatorIndex = t.validatorIndex := congrArg Prod.fst htu
    omega

/-- C6: aggregation is deterministic — sorting any completion-order
permutation of the tagged findings yields the same list as the reference
merge, and that list is sorted by descending severity with ties broken by
validator registration order, then by appearance order within the
validator's own output. -/
theorem aggregation_order_deterministic (rows : List (List ValidationIssue))
    (arrival : List TaggedFinding) (h : arrival.Perm (tagRows 0 rows)) :
    List.insertionSort keyLe arrival = aggregateFindings rows ∧
      (aggregateFindings rows).Sorted keyLe := by
  have hnodup : ((tagRows 0 rows).map tagOf).Nodup := tagRows_tags_nodup 0 rows
  have s1 : (List.insertionSort keyLe arrival).Sorted keyLe :=
    List.sorted_insertionSort keyLe arrival
  have s2 : (List.insertionSort keyLe (tagRows 0 rows)).Sorted keyLe :=
    List.sorted_insertionSort keyLe _
  have hp : (List.insertionSort keyLe arrival).Perm
      (List.insertionSort keyLe (tagRows 0 rows)) :=
    (List.perm_insertionSort keyLe arrival).trans
      (h.trans (List.perm_insertionSort keyLe _).symm)
  have hnd1 : ((List.insertionSort keyLe arrival).map tagOf).Nodup := by
    have hperm : (List.insertionSort keyLe arrival).Perm (tagRows 0 rows) :=
      (List.perm_insertionSort keyLe arrival).trans h
    exact (hperm.map tagOf).nodup_iff.mpr hnodup
  exact ⟨sorted_perm_nodup_tags_eq hp s1 s2 hnd1, s2⟩

/-- C6 witness: two validators producing one finding each, arriving in
reversed completion order, still merge to the reference aggregation. -/
theorem aggregation_order_deterministic_witness :
    ([⟨1, 0, sampleIssueB⟩, ⟨0, 0, sampleIssueA⟩] : List TaggedFinding).Perm
        (tagRows 0 [[sampleIssueA], [sampleIssueB]]) ∧
      List.insertionSort keyLe [⟨1, 0, sampleIssueB⟩, ⟨0, 0, sampleIssueA⟩] =
        aggregateFindings [[sampleIssueA], [sampleIssueB]] :=
  ⟨List.Perm.swap (⟨0, 0, sampleIssueA⟩ : TaggedFinding) ⟨1, 0, sampleIssueB⟩ [],
    (aggregation_order_deterministic [[sampleIssueA], [sampleIssueB]]
      [⟨1, 0, sampleIssueB⟩, ⟨0, 0, sampleIssueA⟩]
      (List.Perm.swap (⟨0, 0, sampleIssueA⟩ : TaggedFinding)
        ⟨1, 0, sampleIssueB⟩ [])).1⟩

/-- C7: asking about a claim id with no retained conversation context fails
with the distinct not-found condition, never the generic internal error. -/
theorem ask_unknown_id_not_found
    (contexts : String → Option ConversationContext)
    (llm : ConversationContext → String → Except Unit String)
    (claimId question : String) (h : contexts claimId = none) :
    ask contexts llm claimId question = .error .notFound ∧
      ask contexts llm claimId question ≠ .error .internalError := by
  unfold ask
  rw [h]
  exact ⟨rfl, by simp⟩

/-- C7 witness: an empty context store answers `CLM001` with the not-found
condition. -/
theorem ask_unknown_id_not_found_witness :
    ((fun _ => (none : Option ConversationContext)) "CLM001" = none) ∧
      ask (fun _ => none) (fun _ _ => .ok "answer") "CLM001"
        "Why was this claim flagged?" = .error .notFound :=
  ⟨rfl, (ask_unknown_id_not_found (fun _ => none) (fun _ _ => .ok "answer")
    "CLM001" "Why was this claim flagged?" rfl).1⟩

/-- C8: on a failed `validateClaim` call, `Home.handleValidate` leaves the
displayed result as `none` and stores the error message; on success it stores
exactly the returned result and clears the error — a failed validation never
leaves a stale previous result displayed. -/
theorem handleValidate_result_error_consistency (s : HomeState)
    (claimData : Claim) :
    (∀ msg, (handleValidate s claimData (.error msg)).validationResult = none ∧
      (handleValidate s claimData (.error msg)).error = some msg) ∧
    (∀ result,
      (handleValidate s claimData (.ok result)).validationResult = some result ∧
        (handleValidate s claimData (.ok result)).error = none) :=
  ⟨fun _ => ⟨rfl, rfl⟩, fun _ => ⟨rfl, rfl⟩⟩

/-- C9: a successful `askQuestion` call appends exactly one entry holding the
submitted question and returned answer to the conversation (earlier entries
unchanged and in order) and clears the question field; a failed call leaves
the conversation unchanged. -/
theorem handleAsk_success_appends (s : ChatState) (resp : AskResponse)
    (hq : jsTrim s.question ≠ "") :
    ((handleAsk s (.ok resp)).1.conversation =
        s.conversation ++ [⟨s.question, resp.answer⟩] ∧
      (handleAsk s (.ok resp)).1.question = "" ∧
      (handleAsk s (.ok resp)).2 = true) ∧
    (∀ msg, (handleAsk s (.error msg)).1.conversation = s.conversation ∧
      (handleAsk s (.error msg)).1.question = s.question) := by
  simp [handleAsk, if_neg hq]

/-- C9 witness: asking a concrete non-blank question with a successful
response appends that question/answer pair. -/
theorem handleAsk_success_appends_witness :
    jsTrim "Why was this claim flagged?" ≠ "" ∧
      (handleAsk ⟨"Why was this claim flagged?", [], false, none⟩
          (.ok ⟨"The risk score exceeded 20."⟩)).1.conversation =
        [] ++ [⟨"Why was this claim flagged?", "The risk score exceeded 20."⟩] :=
  ⟨by decide,
    ((handleAsk_success_appends ⟨"Why was this claim flagged?", [], false, none⟩
      ⟨"The risk score exceeded 20."⟩ (by decide)).1).1⟩

/-- C10: a question that trims to the empty string causes `handleAsk` to
issue no request and leave the component state unchanged. -/
theorem handleAsk_blank_question_noop (s : ChatState)
    (outcome : Except String AskResponse) (hq : jsTrim s.question = "") :
    handleAsk s outcome = (s, false) := by
  unfold handleAsk
  rw [if_pos hq]

/-- C10 witness: a whitespace-only question is a no-op and issues no
request. -/
theorem handleAsk_blank_question_noop_witness :
    jsTrim "   " = "" ∧
      handleAsk ⟨"   ", [], false, none⟩ (.ok ⟨"unused"⟩) =
        (⟨"   ", [], false, none⟩, false) :=
  ⟨by decide,
    handleAsk_blank_question_noop ⟨"   ", [], false, none⟩ (.ok ⟨"unused"⟩)
      (by decide)⟩

end ClaimsGuardian
